import Mathlib

/-
Verification of the tpot `tsh` wrapper (package `tsh`, plus `main.go`).

Go strings are embedded as `List Char` (`GoStr`); the Go standard-library
string operations used by the source (`strings.Split`, `strings.Contains`,
`strings.HasPrefix`, `strings.TrimSpace`, `strings.TrimPrefix`,
`strings.Replace(_, _, "", -1)`, `bufio.Scanner` with `ScanLines`) are
embedded below with Go's semantics on those inputs.  `time.Time` values are
embedded as an `Int` count of seconds relative to the zero time
(January 1 of year 1, 00:00:00 UTC), so that Go's zero `time.Time` is `0`
and `time.Time.Before` is `<`.  External process invocations are embedded
by passing the process result (ran-with-error flag, captured stdout and
stderr) as explicit arguments.
-/

namespace Tpot

/-- A Go string, as its list of runes. -/
abbrev GoStr := List Char

/-- Go `strings.Split(s, sep)` for a one-rune separator `sep`. -/
def splitChar (c : Char) : GoStr → List GoStr
  | [] => [[]]
  | x :: xs =>
    match splitChar c xs with
    | [] => [[]]
    | t :: ts => if x = c then [] :: t :: ts else (x :: t) :: ts

/-- Go `strings.Contains(s, sub)`. -/
def containsSub (sub : GoStr) : GoStr → Bool
  | [] => sub.isEmpty
  | x :: xs => sub.isPrefixOf (x :: xs) || containsSub sub xs

/-- Go `strings.HasPrefix(s, p)`. -/
def hasPrefixGo (p s : GoStr) : Bool := p.isPrefixOf s

/-- Go `strings.TrimPrefix(s, p)`. -/
def trimPrefixGo (p s : GoStr) : GoStr :=
  if p.isPrefixOf s then s.drop p.length else s

/-- The white-space runes recognized by Go `unicode.IsSpace` that can occur
in the ASCII/Latin-1 range (wider Unicode space classes do not occur in the
texts this program parses). -/
def isGoSpace (c : Char) : Bool :=
  c = ' ' || c = '\t' || c = '\n' || c = '\r' ||
  c = Char.ofNat 11 || c = Char.ofNat 12 || c = Char.ofNat 0x85 || c = Char.ofNat 0xA0

/-- Go `strings.TrimSpace`. -/
def trimSpace (s : GoStr) : GoStr :=
  ((s.dropWhile isGoSpace).reverse.dropWhile isGoSpace).reverse

/-- Fuel-measured worker for `removeAll`; the fuel bounds the number of
loop steps, each of which consumes at least one rune. -/
def removeAllAux (old : GoStr) : Nat → GoStr → GoStr
  | _, [] => []
  | 0, s => s
  | n + 1, c :: rest =>
    if old.isPrefixOf (c :: rest) && !old.isEmpty then
      removeAllAux old n ((c :: rest).drop old.length)
    else
      c :: removeAllAux old n rest

/-- Go `strings.Replace(s, old, "", -1)`: delete every occurrence of `old`. -/
def removeAll (old s : GoStr) : GoStr := removeAllAux old s.length s

/-- Strip one trailing carriage return, as Go `bufio.ScanLines` does. -/
def dropCR (l : GoStr) : GoStr :=
  if l.getLast? = some '\r' then l.dropLast else l

/-- The sequence of lines produced by Go `bufio.Scanner` with `ScanLines`:
split on newlines, the final empty segment (from a trailing newline, or an
empty input) yields no line, and each line loses one trailing `\r`. -/
def goScanLines (s : GoStr) : List GoStr :=
  let ps := splitChar '\n' s
  (if ps.getLast? = some [] then ps.dropLast else ps).map dropCR

/-! ## Time model

The Go `time.Time` values this program manipulates are embedded as an `Int`
number of seconds since the zero time (January 1, year 1, 00:00:00 UTC),
so the zero `time.Time` is `0` and `time.Time.Before` is `<`. -/

/-- Gregorian leap-year rule (proleptic, as Go's `time` package uses). -/
def isLeapYear (y : Nat) : Bool :=
  y % 4 = 0 && (y % 100 ≠ 0 || y % 400 = 0)

/-- Number of days in month `m` (1–12) of year `y`. -/
def daysInMonth (y m : Nat) : Nat :=
  if m = 2 then (if isLeapYear y then 29 else 28)
  else if m = 4 || m = 6 || m = 9 || m = 11 then 30
  else 31

/-- Days in year `y` strictly before month `m`. -/
def daysBeforeMonth (y : Nat) : Nat → Nat
  | 0 => 0
  | m + 1 => if m = 0 then 0 else daysBeforeMonth y m + daysInMonth y m

/-- Days from January 1 of year 1 to the civil date `y-m-d` (for `y ≥ 1`). -/
def daysSinceYear1 (y m d : Nat) : Nat :=
  (y - 1) * 365 + (y - 1) / 4 - (y - 1) / 100 + (y - 1) / 400 +
    daysBeforeMonth y m + (d - 1)

/-- Seconds from the zero time to `y-m-d hh:mi:ss` UTC. -/
def civilInstant (y m d hh mi ss : Nat) : Int :=
  ((daysSinceYear1 y m d * 86400 + hh * 3600 + mi * 60 + ss : Nat) : Int)

/-- Go `time.Time.Before`. -/
def goTimeBefore (a b : Int) : Bool := a < b

/-- Read exactly `n` decimal digits, returning their value and the rest. -/
def takeDigitsAux (acc : Nat) : Nat → GoStr → Option (Nat × GoStr)
  | 0, s => some (acc, s)
  | _ + 1, [] => none
  | n + 1, c :: cs =>
    if c.isDigit then takeDigitsAux (acc * 10 + (c.toNat - ('0').toNat)) n cs
    else none

/-- Read exactly `n` decimal digits. -/
def takeDigits (n : Nat) (s : GoStr) : Option (Nat × GoStr) :=
  takeDigitsAux 0 n s

/-- Consume one expected rune. -/
def expectChar (c : Char) : GoStr → Option GoStr
  | [] => none
  | x :: xs => if x = c then some xs else none

/-- Parse `YYYY-MM-DD` and the following space. -/
def parseDatePart (s : GoStr) : Option (Nat × Nat × Nat × GoStr) := do
  let (y, s) ← takeDigits 4 s
  let s ← expectChar '-' s
  let (mo, s) ← takeDigits 2 s
  let s ← expectChar '-' s
  let (d, s) ← takeDigits 2 s
  let s ← expectChar ' ' s
  some (y, mo, d, s)

/-- Parse `HH:MM:SS` and the following space. -/
def parseClockPart (s : GoStr) : Option (Nat × Nat × Nat × GoStr) := do
  let (hh, s) ← takeDigits 2 s
  let s ← expectChar ':' s
  let (mi, s) ← takeDigits 2 s
  let s ← expectChar ':' s
  let (ss, s) ← takeDigits 2 s
  let s ← expectChar ' ' s
  some (hh, mi, ss, s)

/-- Parse the signed numeric zone offset `±HHMM`, in seconds. -/
def parseZonePart (s : GoStr) : Option (Int × GoStr) := do
  let (neg, s) ← match s with
    | '+' :: rest => some (false, rest)
    | '-' :: rest => some (true, rest)
    | _ => none
  let (oh, s) ← takeDigits 2 s
  let (om, s) ← takeDigits 2 s
  let off : Int := ((oh * 3600 + om * 60 : Nat) : Int)
  some ((if neg then -off else off), s)

/-- Parse the literal trailing zone text ` WIB` and require end of input. -/
def parseZoneNamePart (s : GoStr) : Option Unit := do
  let s ← expectChar ' ' s
  let s ← expectChar 'W' s
  let s ← expectChar 'I' s
  let s ← expectChar 'B' s
  if s = [] then some () else none

/-- Go `time.Parse("2006-01-02 15:04:05 -0700 WIB", s)`, returning the
parsed instant: a fixed four-digit year, two-digit month/day/hour/minute/
second with the documented range checks, a signed four-digit numeric zone
offset, and the literal zone text `WIB`; the whole input must be consumed. -/
def goTimeParseWIB (s : GoStr) : Option Int := do
  let (y, mo, d, s) ← parseDatePart s
  let (hh, mi, ss, s) ← parseClockPart s
  let (off, s) ← parseZonePart s
  let _ ← parseZoneNamePart s
  if mo < 1 || 12 < mo || d < 1 || daysInMonth y mo < d ||
      23 < hh || 59 < mi || 59 < ss then none
  else
    some (civilInstant y mo d hh mi ss - off)

example : splitChar ':' (("a:b:c").data) = [("a").data, ("b").data, ("c").data] := by decide
example : splitChar ':' (("").data) = [[]] := by decide
example : containsSub (("URL:").data) (("Profile URL: x").data) = true := by decide
example : containsSub (("URL:").data) (("nothing").data) = false := by decide
example : trimSpace (("  a b ").data) = ("a b").data := by decide
example : removeAll (("ab").data) (("xabyab").data) = ("xy").data := by decide
example : goScanLines (("a\nb\n").data) = [("a").data, ("b").data] := by decide
example : goScanLines (("").data) = [] := by decide
example : trimPrefixGo (("ab").data) (("abc").data) = ("c").data := by decide
example : civilInstant 2099 1 1 0 0 0 = 66206505600 := by decide
example : civilInstant 1970 1 1 0 0 0 = 62135596800 := by decide
example : goTimeParseWIB (("2099-01-01 00:00:00 +0000 WIB").data) = some 66206505600 := by decide
example : goTimeParseWIB (("2020-06-02 10:04:05 +0700 WIB").data) =
    some (civilInstant 2020 6 2 10 4 5 - 25200) := by decide
example : goTimeParseWIB (("garbage").data) = none := by decide
example : goTimeParseWIB (("2020-02-30 10:04:05 +0700 WIB").data) = none := by decide

/-! ## Profile scan (`tsh.go`, `isLogin`)

`type Profile struct { URL string; ValidUntil time.Time }`; the Go map
`map[string]*Profile` is embedded as an association list with
replace-on-insert semantics (and lookup by key equality), which captures
exactly the key/value behavior `isLogin` uses. -/

/-- `Profile` from `tsh.go`; `validUntil` is the embedded instant, whose
zero value (the zero `time.Time`) is `0`. -/
structure Profile where
  url : GoStr
  validUntil : Int
deriving DecidableEq

/-- The profile map built by the scan in `isLogin`. -/
abbrev ProfileMap := List (GoStr × Profile)

/-- Go map assignment `m[k] = v`: replace the entry for `k` if present,
otherwise add it. -/
def mapInsert (k : GoStr) (v : Profile) : ProfileMap → ProfileMap
  | [] => [(k, v)]
  | (k', v') :: rest =>
    if k' = k then (k, v) :: rest else (k', v') :: mapInsert k v rest

/-- Go map lookup `m[k]`. -/
def mapLookup (k : GoStr) : ProfileMap → Option Profile
  | [] => none
  | (k', v') :: rest => if k' = k then some v' else mapLookup k rest

/-- The commit step `profileMap[currentProfile.URL] = currentProfile`,
guarded by `currentProfile != nil && currentProfile.URL != ""`. -/
def commitProfile (cp : Option Profile) (pm : ProfileMap) : ProfileMap :=
  match cp with
  | none => pm
  | some p => if p.url ≠ [] then mapInsert p.url p pm else pm

/-- The marker `Profile URL:`. -/
def profileURLMarker : GoStr := ("Profile URL:").data

/-- The marker `Valid until:`. -/
def validUntilMarker : GoStr := ("Valid until:").data

/-- The scanner loop of `isLogin` over the status-text lines, carrying the
in-progress profile and the profile map.  The result is `none` when the Go
code would dereference the nil `currentProfile` pointer (a `Valid until:`
line processed before any `Profile URL:` line), i.e. panic at run time. -/
def scanProfileLines : List GoStr → Option Profile → ProfileMap →
    Option (Option Profile × ProfileMap)
  | [], cp, pm => some (cp, pm)
  | line :: rest, cp, pm =>
    if containsSub profileURLMarker line then
      let pm' := commitProfile cp pm
      let l1 := removeAll ((">").data) line
      let l2 := removeAll profileURLMarker l1
      scanProfileLines rest (some { url := trimSpace l2, validUntil := 0 }) pm'
    else if containsSub validUntilMarker line then
      match cp with
      | none => none
      | some p =>
        let l1 := trimSpace line
        let ts := trimSpace ((splitChar '[' (trimPrefixGo validUntilMarker l1)).headD [])
        let vu := (goTimeParseWIB ts).getD 0
        scanProfileLines rest (some { p with validUntil := vu }) pm
    else
      scanProfileLines rest cp pm

/-- The profile map that `isLogin` derives from the captured stdout of
`tsh status` (including the final commit); `none` when the scan panics. -/
def parseProfileMap (stdOut : GoStr) : Option ProfileMap :=
  match scanProfileLines (goScanLines stdOut) none [] with
  | none => none
  | some (cp, pm) => some (commitProfile cp pm)

/-- `isLogin` from `tsh.go`, as a function of the configured proxy address
(`t.proxy.Address`), the current time (`time.Now()`), and the result of the
executor running `tsh status` (`runErr` is whether `cmd.Run` returned a
non-nil error; `stdOut`/`stdErr` are the captured streams).  The result is
`none` when the Go code panics (see `scanProfileLines`). -/
def isLogin (address : GoStr) (now : Int) (runErr : Bool)
    (stdOut stdErr : GoStr) : Option Bool :=
  if runErr then some false
  else if stdErr ≠ [] then some false
  else
    match parseProfileMap stdOut with
    | none => none
    | some pm =>
      match mapLookup address pm with
      | none => some false
      | some target => some (goTimeBefore now target.validUntil)

/-! ## Node-listing parser (`tsh.go`, `parseNodesFromString`) -/

/-- `config.Item`: one parsed host row. -/
structure Item where
  hostname : GoStr
  address : GoStr
deriving DecidableEq

/-- `config.Node`: the parsed host directory. -/
structure Node where
  items : List Item
deriving DecidableEq

/-- The zero value `config.Item{}`. -/
def emptyItem : Item := { hostname := [], address := [] }

/-- The token loop of `parseNodesFromString`: skip empty tokens, break once
`infoCount` reaches 2, fill `Hostname` then `Address`. -/
def nodeFromTokens : List GoStr → Nat → Item → Item
  | [], _, node => node
  | s :: rest, infoCount, node =>
    if s = [] then nodeFromTokens rest infoCount node
    else if infoCount = 2 then node
    else if infoCount = 0 then
      nodeFromTokens rest (infoCount + 1) { node with hostname := s }
    else
      nodeFromTokens rest (infoCount + 1) { node with address := s }

/-- The line loop of `parseNodesFromString`: skip table headers, separator
rules and indented lines; tokenize the rest on single spaces; never append
the zero-value `config.Item`. -/
def parseNodesLoop : List GoStr → List Item
  | [] => []
  | line :: rest =>
    if hasPrefixGo (("Node").data) line || hasPrefixGo (("---").data) line ||
        hasPrefixGo ((" ").data) line then
      parseNodesLoop rest
    else
      let node := nodeFromTokens (splitChar ' ' line) 0 emptyItem
      if node ≠ emptyItem then node :: parseNodesLoop rest
      else parseNodesLoop rest

/-- `parseNodesFromString` from `tsh.go`. -/
def parseNodesFromString (nodeStr : GoStr) : Node :=
  { items := parseNodesLoop (splitChar '\n' nodeStr) }

/-! ## Status parser (`tsh.go`, `parseStringToStatus`) -/

/-- `config.ProxyStatus` (the fields `parseStringToStatus` fills). -/
structure ProxyStatus where
  loginAs : GoStr
  roles : List GoStr
  userLogins : List GoStr
deriving DecidableEq

/-- The zero value `config.ProxyStatus{}`. -/
def emptyProxyStatus : ProxyStatus := { loginAs := [], roles := [], userLogins := [] }

/-- `trimSliceString` from `tsh.go`. -/
def trimSliceString (list : List GoStr) : List GoStr := list.map trimSpace

/-- One iteration of the line loop in `parseStringToStatus`: split the line
on colons, skip it when that yields at most one segment, and otherwise
switch on the trimmed first segment, storing the trimmed second segment
(for `Roles`/`Logins` split further on commas, each piece trimmed). -/
def statusLine (res : ProxyStatus) (line : GoStr) : ProxyStatus :=
  match splitChar ':' line with
  | [] => res
  | [_] => res
  | k :: v :: _ =>
    if trimSpace k = ("Logged in as").data then
      { res with loginAs := trimSpace v }
    else if trimSpace k = ("Roles").data then
      { res with roles := trimSliceString (splitChar ',' (trimSpace v)) }
    else if trimSpace k = ("Logins").data then
      { res with userLogins := trimSliceString (splitChar ',' (trimSpace v)) }
    else res

/-- `parseStringToStatus` from `tsh.go`: drop every `>`, split into lines,
and fold the per-line step over them. -/
def parseStringToStatus (str : GoStr) : ProxyStatus :=
  (splitChar '\n' (removeAll ((">").data) str)).foldl statusLine emptyProxyStatus

/-! ## Version model

`Version`, `NewVersion` and `Version.IsSupported` live in a file of this
repository that is not among the given sources (only their callers
`TSH.Version`, `TSH.Status` and `NewTSH` are), so they are modelled from
the specification's words. -/

/-- `Version`: major, minor, patch. -/
structure Version where
  major : Nat
  minor : Nat
  patch : Nat
deriving DecidableEq

/-- Split on every rune satisfying `p` (used to cut a banner into
whitespace-separated tokens; the empty segments are dropped by the
consumer through `findSome?` failing on them). -/
def splitPred (p : Char → Bool) : GoStr → List GoStr
  | [] => [[]]
  | x :: xs =>
    match splitPred p xs with
    | [] => [[]]
    | t :: ts => if p x then [] :: t :: ts else (x :: t) :: ts

/-- The numeric value of a digit run. -/
def digitsToNat (ds : GoStr) : Nat :=
  ds.foldl (fun acc c => acc * 10 + (c.toNat - ('0').toNat)) 0

/-- Modelled from the spec: the version-token recognizer of `NewVersion`
(not under the given sources).  A token matches when it begins with `v`
followed by `<major>.<minor>.<patch>`, each component a non-empty digit
run; only the first three numeric components are kept and any trailing
text after the patch digits (e.g. a fourth component) is ignored. -/
def versionFromToken (t : GoStr) : Option Version :=
  match t with
  | 'v' :: rest =>
    let maj := rest.takeWhile Char.isDigit
    let r1 := rest.dropWhile Char.isDigit
    if maj = [] then none
    else
      match r1 with
      | '.' :: r2 =>
        let mino := r2.takeWhile Char.isDigit
        let r3 := r2.dropWhile Char.isDigit
        if mino = [] then none
        else
          match r3 with
          | '.' :: r4 =>
            let pat := r4.takeWhile Char.isDigit
            if pat = [] then none
            else some { major := digitsToNat maj, minor := digitsToNat mino,
                        patch := digitsToNat pat }
          | _ => none
      | _ => none
  | _ => none

/-- Modelled from the spec: `NewVersion` (not under the given sources)
extracts the first whitespace-separated token of the banner matching a
leading `v<major>.<minor>.<patch>` pattern, and fails when no token
matches. -/
def NewVersion (banner : GoStr) : Option Version :=
  (splitPred isGoSpace banner).findSome? versionFromToken

/-- Modelled from the spec: `Version.IsSupported` (not under the given
sources) compares component-wise lexicographically — major first, then
minor, then patch — and accepts the candidate `cand` iff it is at least
the minimum `minV` (the receiver in `t.minVersion.IsSupported(cv)`); equal
versions are supported. -/
def Version.IsSupported (minV cand : Version) : Bool :=
  if cand.major > minV.major then true
  else if cand.major < minV.major then false
  else if cand.minor > minV.minor then true
  else if cand.minor < minV.minor then false
  else cand.patch ≥ minV.patch

/-! ## Process-level operations (`tsh.go`, methods of `TSH`)

Each method runs the external `tsh` binary; the embedding passes the
process result as an argument: `runErr` is whether `cmd.Run()` returned a
non-nil error (non-zero exit), and `stdOut`/`stdErr` are the captured
streams.  `getProxyFlags` can only fail when `url.Parse` rejects the
configured proxy address; that outcome is passed as the flag
`flagsOk`. -/

/-- The result of one non-interactive external-process invocation. -/
structure ProcResult where
  runErr : Bool
  stdOut : GoStr
  stdErr : GoStr

/-- The error values these methods can return. -/
inductive GoError where
  /-- `cmd.Run()` returned a non-nil error (e.g. non-zero exit). -/
  | exitErr : GoError
  /-- `errors.New(stdErr)` for a non-empty captured error stream. -/
  | stdErrMsg : GoStr → GoError
  /-- `fmt.Errorf("std out is empty")`. -/
  | emptyStdOut : GoError
  /-- `NewVersion` failed to find a version token. -/
  | versionParseErr : GoError
  /-- `ErrUnsupportedVersion`. -/
  | unsupportedVersion : GoError
  /-- `url.Parse` rejected the proxy address inside `getProxyFlags`. -/
  | urlParseErr : GoError
  /-- An error returned by `Login` (opaque to `ListNodes`). -/
  | loginFailure : GoError
deriving DecidableEq

/-- `TSH.Version` from `tsh.go`: run `tsh version`, fail on a run error, a
non-empty error stream or empty stdout, then parse the banner. -/
def TSH.Version (r : ProcResult) : Except GoError Version :=
  if r.runErr then .error .exitErr
  else if r.stdErr ≠ [] then .error (.stdErrMsg r.stdErr)
  else if r.stdOut = [] then .error .emptyStdOut
  else
    match NewVersion r.stdOut with
    | none => .error .versionParseErr
    | some v => .ok v

/-- `TSH.Status` from `tsh.go`: detect the tool version (fatal on any
failure), gate on `t.minVersion.IsSupported`, build the proxy flags, run
`tsh status`, fail on a run error, a non-empty error stream or empty
stdout, and otherwise parse the output.  `verRes` is the process result of
`tsh version` and `stRes` that of `tsh status`. -/
def TSH.Status (minVersion : Tpot.Version) (verRes : ProcResult) (flagsOk : Bool)
    (stRes : ProcResult) : Except GoError ProxyStatus :=
  match TSH.Version verRes with
  | .error e => .error e
  | .ok cv =>
    if !(minVersion.IsSupported cv) then .error .unsupportedVersion
    else if !flagsOk then .error .urlParseErr
    else if stRes.runErr then .error .exitErr
    else if stRes.stdErr ≠ [] then .error (.stdErrMsg stRes.stdErr)
    else if stRes.stdOut = [] then .error .emptyStdOut
    else .ok (parseStringToStatus stRes.stdOut)

/-- `TSH.ListNodes` from `tsh.go`: call `Login` first and return its error
with an empty `config.Node`, then build the proxy flags, run `tsh ls`,
fail (still with an empty node list) on a run error or a non-empty error
stream, and otherwise parse stdout.  `loginErr` is the result of the
`Login` call and `r` the process result of `tsh ls`. -/
def TSH.ListNodes (loginErr : Option GoError) (flagsOk : Bool)
    (r : ProcResult) : Node × Option GoError :=
  match loginErr with
  | some e => ({ items := [] }, some e)
  | none =>
    if !flagsOk then ({ items := [] }, some .urlParseErr)
    else if r.runErr then ({ items := [] }, some .exitErr)
    else if r.stdErr ≠ [] then ({ items := [] }, some (.stdErrMsg r.stdErr))
    else (parseNodesFromString r.stdOut, none)

/-- The `minVersion` field that `NewTSH` sets (`tsh.go`, lines 355–360). -/
def NewTSHMinVersion : Version := { major := 2, minor := 6, patch := 1 }

/-! ## Claim-side descriptions

These definitions follow the wording of the specification's claims; the
theorems below compare them with the embedded source functions. -/

/-- Claim side (C7/C8): the entries a single listing line contributes —
nothing for a header, separator or indented line; otherwise the first
non-empty space-separated token is the hostname and the second the
address, any further tokens are ignored, and a line with no non-empty
token contributes nothing. -/
def lineEntries (line : GoStr) : List Item :=
  if hasPrefixGo (("Node").data) line || hasPrefixGo (("---").data) line ||
      hasPrefixGo ((" ").data) line then []
  else
    match (splitChar ' ' line).filter (· ≠ []) with
    | [] => []
    | [h] => [{ hostname := h, address := [] }]
    | h :: a :: _ => [{ hostname := h, address := a }]

/-- Claim side (C6): `minV ≤ cand` under component-wise lexicographic
comparison, major first, then minor, then patch. -/
def versionLe (minV cand : Version) : Prop :=
  minV.major < cand.major ∨
    (minV.major = cand.major ∧
      (minV.minor < cand.minor ∨
        (minV.minor = cand.minor ∧ minV.patch ≤ cand.patch)))

/-- Claim side (C10): the segment of a line before its first colon. -/
def beforeFirstColon (line : GoStr) : GoStr := line.takeWhile (· ≠ ':')

/-- Claim side (C10): the segment of a line strictly between its first and
second colons (up to the line's end when there is no second colon). -/
def betweenFirstColons (line : GoStr) : GoStr :=
  ((line.dropWhile (· ≠ ':')).tail).takeWhile (· ≠ ':')

/-- The status text of the end-to-end example in the specification. -/
def c1StatusText : GoStr :=
  ("Profile URL: https://proxy.example.com\nValid until: 2099-01-01 00:00:00 +0000 WIB").data

/-- The instant `2099-01-01 00:00:00 UTC` that the example's
`Valid until` line parses to. -/
def instant2099 : Int := civilInstant 2099 1 1 0 0 0

example : parseProfileMap c1StatusText =
    some [(("https://proxy.example.com").data,
      { url := ("https://proxy.example.com").data, validUntil := instant2099 })] := by decide

example : isLogin (("https://proxy.example.com/webapi").data) 0 false c1StatusText [] =
    some false := by decide

example : isLogin (("https://proxy.example.com").data) 0 false c1StatusText [] =
    some true := by decide

example : isLogin (("https://proxy.example.com").data) instant2099 false c1StatusText [] =
    some false := by decide

example : parseProfileMap (("Valid until: x").data) = none := by decide

example : parseProfileMap (("Profile URL: u\nValid until: garbage").data) =
    some [(("u").data, { url := ("u").data, validUntil := 0 })] := by decide

example : parseNodesFromString (("host1   10.0.0.1").data) =
    { items := [{ hostname := ("host1").data, address := ("10.0.0.1").data }] } := by decide

example : parseNodesFromString
      (("Node Name Address\n---- ----\nhost1   10.0.0.1 extra\n  indented\n\nlone").data) =
    { items := [{ hostname := ("host1").data, address := ("10.0.0.1").data },
                { hostname := ("lone").data, address := [] }] } := by decide

example : parseStringToStatus (("> Logged in as: alice:ignored\nRoles: a, b\nJunk\nLogins: x,y").data) =
    { loginAs := ("alice").data,
      roles := [("a").data, ("b").data],
      userLogins := [("x").data, ("y").data] } := by decide

example : NewVersion (("Teleport v2.4.5.1 git:v2.4.5-19-g4901c48-dirty").data) =
    some { major := 2, minor := 4, patch := 5 } := by decide

example : NewVersion (("no version here").data) = none := by decide

example : Version.IsSupported { major := 2, minor := 6, patch := 1 }
    { major := 2, minor := 6, patch := 0 } = false := by decide

example : Version.IsSupported { major := 2, minor := 6, patch := 1 }
    { major := 3, minor := 0, patch := 0 } = true := by decide

/-! ## Lemmas about the node-listing parser -/

/-- Once `infoCount` has reached 2 the token loop changes nothing. -/
lemma nodeFromTokens_two (ts : List GoStr) (node : Item) :
    nodeFromTokens ts 2 node = node := by
  induction ts with
  | nil => rfl
  | cons s rest ih =>
    have h1 : nodeFromTokens (s :: rest) 2 node =
        if s = [] then nodeFromTokens rest 2 node else node := rfl
    rw [h1]
    by_cases h : s = [] <;> simp [h, ih]

/-- With one field filled, the loop stores the next non-empty token as the
address and ignores everything afterwards. -/
lemma nodeFromTokens_one (ts : List GoStr) (node : Item) :
    nodeFromTokens ts 1 node =
      match ts.filter (· ≠ []) with
      | [] => node
      | a :: _ => { node with address := a } := by
  induction ts with
  | nil => rfl
  | cons s rest ih =>
    have h1 : nodeFromTokens (s :: rest) 1 node =
        if s = [] then nodeFromTokens rest 1 node
        else nodeFromTokens rest 2 { node with address := s } := rfl
    by_cases h : s = []
    · have h2 : (s :: rest).filter (· ≠ []) = rest.filter (· ≠ []) := by simp [h]
      rw [h1, if_pos h, h2, ih]
    · have h2 : (s :: rest).filter (· ≠ []) = s :: rest.filter (· ≠ []) := by
        simp [h]
      rw [h1, if_neg h, h2, nodeFromTokens_two]

/-- The token loop started fresh: first non-empty token is the hostname,
second the address, the rest ignored. -/
lemma nodeFromTokens_zero (ts : List GoStr) (node : Item) :
    nodeFromTokens ts 0 node =
      match ts.filter (· ≠ []) with
      | [] => node
      | [h] => { node with hostname := h }
      | h :: a :: _ => { node with hostname := h, address := a } := by
  induction ts with
  | nil => rfl
  | cons s rest ih =>
    have h1 : nodeFromTokens (s :: rest) 0 node =
        if s = [] then nodeFromTokens rest 0 node
        else nodeFromTokens rest 1 { node with hostname := s } := rfl
    by_cases h : s = []
    · have h2 : (s :: rest).filter (· ≠ []) = rest.filter (· ≠ []) := by simp [h]
      rw [h1, if_pos h, h2, ih]
    · have h2 : (s :: rest).filter (· ≠ []) = s :: rest.filter (· ≠ []) := by
        simp [h]
      rw [h1, if_neg h, h2, nodeFromTokens_one]
      cases hf : rest.filter (· ≠ []) <;> rfl

/-- Each line of the listing contributes exactly its `lineEntries`. -/
lemma parseNodesLoop_eq_flatten (ls : List GoStr) :
    parseNodesLoop ls = (ls.map lineEntries).flatten := by
  induction ls with
  | nil => rfl
  | cons line rest ih =>
    have h1 : parseNodesLoop (line :: rest) =
        if (hasPrefixGo (("Node").data) line || hasPrefixGo (("---").data) line ||
            hasPrefixGo ((" ").data) line) = true then parseNodesLoop rest
        else
          if nodeFromTokens (splitChar ' ' line) 0 emptyItem ≠ emptyItem then
            nodeFromTokens (splitChar ' ' line) 0 emptyItem :: parseNodesLoop rest
          else parseNodesLoop rest := rfl
    by_cases hdr : (hasPrefixGo (("Node").data) line || hasPrefixGo (("---").data) line ||
        hasPrefixGo ((" ").data) line) = true
    · have hl : lineEntries line = [] := by
        unfold lineEntries; rw [if_pos hdr]
      rw [h1, if_pos hdr, ih]
      simp [hl]
    · have hle : lineEntries line =
          match (splitChar ' ' line).filter (· ≠ []) with
          | [] => []
          | [h] => [{ hostname := h, address := [] }]
          | h :: a :: _ => [{ hostname := h, address := a }] := by
        unfold lineEntries; rw [if_neg hdr]
      rw [h1, if_neg hdr]
      rw [nodeFromTokens_zero]
      simp only [List.map_cons, List.flatten_cons]
      rw [hle, ih]
      cases hf : (splitChar ' ' line).filter (· ≠ []) with
      | nil => simp
      | cons h t =>
        have hh : h ≠ [] := by
          have hm : h ∈ (splitChar ' ' line).filter (· ≠ []) := by
            rw [hf]; exact List.mem_cons_self _ _
          simpa using (List.mem_filter.mp hm).2
        cases t with
        | nil => simp [emptyItem, hh]
        | cons a t' => simp [emptyItem, hh]

/-- Every entry a line contributes has a non-empty hostname. -/
lemma lineEntries_hostname_ne (line : GoStr) (e : Item)
    (he : e ∈ lineEntries line) : e.hostname ≠ [] := by
  unfold lineEntries at he
  by_cases hdr : (hasPrefixGo (("Node").data) line || hasPrefixGo (("---").data) line ||
      hasPrefixGo ((" ").data) line) = true
  · rw [if_pos hdr] at he
    simp at he
  · rw [if_neg hdr] at he
    cases hf : (splitChar ' ' line).filter (· ≠ []) with
    | nil => rw [hf] at he; simp at he
    | cons h t =>
      have hh : h ≠ [] := by
        have hm : h ∈ (splitChar ' ' line).filter (· ≠ []) := by
          rw [hf]; exact List.mem_cons_self _ _
        simpa using (List.mem_filter.mp hm).2
      rw [hf] at he
      cases t with
      | nil =>
        simp at he
        rw [he]
        simpa using hh
      | cons a t' =>
        simp at he
        rw [he]
        simpa using hh

/-- C7 (confirmed): `parseNodesFromString` contributes, per input line,
exactly what the claim describes — nothing for lines beginning with
`Node`, `---` or a space; otherwise the first non-empty space-separated
token as hostname, the second as address, all further tokens ignored —
and the listed two-column example parses to the claimed entry. -/
theorem c7_parseNodes_lines :
    (∀ s : GoStr, (parseNodesFromString s).items =
      ((splitChar '\n' s).map lineEntries).flatten) ∧
    parseNodesFromString (("host1   10.0.0.1").data) =
      { items := [{ hostname := ("host1").data, address := ("10.0.0.1").data }] } := by
  constructor
  · intro s
    exact parseNodesLoop_eq_flatten _
  · decide

/-- C8 (confirmed): every entry `parseNodesFromString` returns has a
non-empty hostname or a non-empty address (the all-zero entry is never
appended), and the returned sequence is exactly the in-order
concatenation of each line's contribution (duplicates kept). -/
theorem c8_parseNodes_entries : ∀ s : GoStr,
    ((parseNodesFromString s).items.all
      (fun e => !(e.hostname.isEmpty && e.address.isEmpty))) = true ∧
    (parseNodesFromString s).items = ((splitChar '\n' s).map lineEntries).flatten := by
  intro s
  refine ⟨?_, parseNodesLoop_eq_flatten _⟩
  rw [List.all_eq_true]
  intro e he
  have he' : e ∈ ((splitChar '\n' s).map lineEntries).flatten := by
    have h := parseNodesLoop_eq_flatten (splitChar '\n' s)
    rw [show (parseNodesFromString s).items = parseNodesLoop (splitChar '\n' s) from rfl, h] at he
    exact he
  obtain ⟨l, hl, hel⟩ := List.mem_flatten.mp he'
  obtain ⟨line, _, rfl⟩ := List.mem_map.mp hl
  have hne := lineEntries_hostname_ne line e hel
  simp [List.isEmpty_iff, hne]

/-- C4 (confirmed): `NewVersion` keeps only the first three numeric
components of a four-component version token — on the specification's
banner it returns `Version 2 4 5` — and in general the token recognizer
ignores everything after the patch digits, a fourth numeric component
included. -/
theorem c4_newVersion_four_components :
    NewVersion (("Teleport v2.4.5.1 git:v2.4.5-19-g4901c48-dirty").data) =
      some { major := 2, minor := 4, patch := 5 } ∧
    ∀ extra : GoStr,
      versionFromToken ('v' :: '2' :: '.' :: '4' :: '.' :: '5' :: '.' :: extra) =
        some { major := 2, minor := 4, patch := 5 } := by
  refine ⟨by decide, ?_⟩
  intro extra
  rfl

/-- C6 (confirmed): `Version.IsSupported minV cand` is true exactly when
`cand` is at least `minV` under component-wise lexicographic comparison
(major first, then minor, then patch; equal versions supported), and the
three example comparisons of the specification hold. -/
theorem c6_isSupported_lex :
    (∀ minV cand : Version, Version.IsSupported minV cand = true ↔ versionLe minV cand) ∧
    Version.IsSupported { major := 2, minor := 6, patch := 1 }
      { major := 2, minor := 6, patch := 0 } = false ∧
    Version.IsSupported { major := 2, minor := 6, patch := 1 }
      { major := 2, minor := 6, patch := 1 } = true ∧
    Version.IsSupported { major := 2, minor := 6, patch := 1 }
      { major := 3, minor := 0, patch := 0 } = true := by
  refine ⟨?_, by decide, by decide, by decide⟩
  intro m c
  unfold Version.IsSupported versionLe
  split_ifs with h1 h2 h3 h4 <;> simp <;> omega

/-- C5 (confirmed): whenever the detected tool version parses but is below
the configured minimum, `TSH.Status` returns `ErrUnsupportedVersion`
regardless of the status invocation's outcome (so without depending on
it); any failure of version detection propagates unchanged; and the
minimum `NewTSH` configures is 2.6.1. -/
theorem c5_status_version_gate :
    (∀ (minV : Version) (verRes : ProcResult) (flagsOk : Bool) (stRes : ProcResult)
        (cv : Version), TSH.Version verRes = .ok cv →
        Version.IsSupported minV cv = false →
        TSH.Status minV verRes flagsOk stRes = .error .unsupportedVersion) ∧
    (∀ (minV : Version) (verRes : ProcResult) (flagsOk : Bool) (stRes : ProcResult)
        (e : GoError), TSH.Version verRes = .error e →
        TSH.Status minV verRes flagsOk stRes = .error e) ∧
    NewTSHMinVersion = { major := 2, minor := 6, patch := 1 } := by
  refine ⟨?_, ?_, rfl⟩
  · intro minV verRes flagsOk stRes cv hok hsup
    unfold TSH.Status
    rw [hok]
    simp [hsup]
  · intro minV verRes flagsOk stRes e herr
    unfold TSH.Status
    rw [herr]

/-- Witness for C5: with the default minimum 2.6.1 and a banner
advertising v2.4.5, `TSH.Status` is the unsupported-version error for an
arbitrary concrete status result. -/
theorem c5_status_version_gate_witness :
    TSH.Status { major := 2, minor := 6, patch := 1 }
      { runErr := false, stdOut := ("Teleport v2.4.5 git:x").data, stdErr := [] } true
      { runErr := false, stdOut := ("Logged in as: a").data, stdErr := [] } =
      .error .unsupportedVersion :=
  c5_status_version_gate.1 _ _ _ _ { major := 2, minor := 4, patch := 5 } rfl rfl

/-- C9 (confirmed): `TSH.ListNodes` returns `Login`'s error (with an empty
node list) when `Login` fails; otherwise, with the proxy flags built, it
fails with the run error or with the captured error-stream text (still
with an empty node list), and in all remaining cases returns exactly
`parseNodesFromString` of the captured stdout (which may itself be the
empty directory). -/
theorem c9_listNodes_errors :
    (∀ (e : GoError) (flagsOk : Bool) (r : ProcResult),
      TSH.ListNodes (some e) flagsOk r = ({ items := [] }, some e)) ∧
    (∀ r : ProcResult, r.runErr = true →
      TSH.ListNodes none true r = ({ items := [] }, some .exitErr)) ∧
    (∀ r : ProcResult, r.runErr = false → r.stdErr ≠ [] →
      TSH.ListNodes none true r = ({ items := [] }, some (.stdErrMsg r.stdErr))) ∧
    (∀ r : ProcResult, r.runErr = false → r.stdErr = [] →
      TSH.ListNodes none true r = (parseNodesFromString r.stdOut, none)) := by
  refine ⟨fun e flagsOk r => rfl, ?_, ?_, ?_⟩
  · intro r h
    unfold TSH.ListNodes
    simp [h]
  · intro r h1 h2
    unfold TSH.ListNodes
    simp [h1, h2]
  · intro r h1 h2
    unfold TSH.ListNodes
    simp [h1, h2]

/-- Witness for C9: a successful listing returns the parsed directory with
no error. -/
theorem c9_listNodes_errors_witness :
    TSH.ListNodes none true
      { runErr := false, stdOut := ("host1 10.0.0.1").data, stdErr := [] } =
      (parseNodesFromString (("host1 10.0.0.1").data), none) :=
  c9_listNodes_errors.2.2.2 _ rfl rfl

/-- A separator-free string splits into itself alone. -/
lemma splitChar_not_mem (c : Char) (l : GoStr) (h : c ∉ l) :
    splitChar c l = [l] := by
  induction l with
  | nil => rfl
  | cons x xs ih =>
    have hx : ¬x = c := fun hxc => h (hxc ▸ List.mem_cons_self x xs)
    have hxs : c ∉ xs := fun hm => h (List.mem_cons_of_mem x hm)
    have h1 : splitChar c (x :: xs) =
        match splitChar c xs with
        | [] => [[]]
        | t :: ts => if x = c then [] :: t :: ts else (x :: t) :: ts := rfl
    rw [h1, ih hxs]
    simp [hx]

/-- The head of a split is the run before the first separator. -/
lemma splitChar_head (c : Char) (l : GoStr) :
    ∃ ts, splitChar c l = l.takeWhile (· ≠ c) :: ts := by
  induction l with
  | nil => exact ⟨[], rfl⟩
  | cons x xs ih =>
    obtain ⟨ts, hts⟩ := ih
    have h1 : splitChar c (x :: xs) =
        match splitChar c xs with
        | [] => [[]]
        | t :: ts => if x = c then [] :: t :: ts else (x :: t) :: ts := rfl
    by_cases hx : x = c
    · subst hx
      rw [h1, hts]
      refine ⟨xs.takeWhile (· ≠ x) :: ts, ?_⟩
      simp [List.takeWhile_cons]
    · rw [h1, hts]
      refine ⟨ts, ?_⟩
      simp [hx, List.takeWhile_cons]

/-- When a separator occurs, the first two segments of the split are the
run before the first separator and the run strictly between the first two
separators. -/
lemma splitChar_mem (c : Char) (l : GoStr) (h : c ∈ l) :
    ∃ ts, splitChar c l =
      l.takeWhile (· ≠ c) :: ((l.dropWhile (· ≠ c)).tail.takeWhile (· ≠ c)) :: ts := by
  induction l with
  | nil => cases h
  | cons x xs ih =>
    have h1 : splitChar c (x :: xs) =
        match splitChar c xs with
        | [] => [[]]
        | t :: ts => if x = c then [] :: t :: ts else (x :: t) :: ts := rfl
    by_cases hx : x = c
    · subst hx
      obtain ⟨ts, hts⟩ := splitChar_head x xs
      rw [h1, hts]
      refine ⟨ts, ?_⟩
      simp [List.takeWhile_cons, List.dropWhile_cons]
    · have hxs : c ∈ xs := by
        cases h with
        | head => exact absurd rfl hx
        | tail _ hm => exact hm
      obtain ⟨ts, hts⟩ := ih hxs
      rw [h1, hts]
      refine ⟨ts, ?_⟩
      simp [hx, List.takeWhile_cons, List.dropWhile_cons]

/-- C10 (confirmed): the per-line step of `parseStringToStatus` uses, as
the value of a recognized key, exactly the trimmed segment between the
line's first and second colons (so a value containing a colon is silently
truncated there), and lines with no colon or with an unrecognized key
leave the accumulated status unchanged. -/
theorem c10_statusLine_truncation : ∀ (res : ProxyStatus) (line : GoStr),
    (':' ∉ line → statusLine res line = res) ∧
    (':' ∈ line → trimSpace (beforeFirstColon line) ≠ ("Logged in as").data →
      trimSpace (beforeFirstColon line) ≠ ("Roles").data →
      trimSpace (beforeFirstColon line) ≠ ("Logins").data →
      statusLine res line = res) ∧
    (':' ∈ line → trimSpace (beforeFirstColon line) = ("Logged in as").data →
      statusLine res line =
        { res with loginAs := trimSpace (betweenFirstColons line) }) ∧
    (':' ∈ line → trimSpace (beforeFirstColon line) = ("Roles").data →
      statusLine res line =
        { res with roles :=
            trimSliceString (splitChar ',' (trimSpace (betweenFirstColons line))) }) ∧
    (':' ∈ line → trimSpace (beforeFirstColon line) = ("Logins").data →
      statusLine res line =
        { res with userLogins :=
            trimSliceString (splitChar ',' (trimSpace (betweenFirstColons line))) }) := by
  intro res line
  refine ⟨?_, ?_, ?_, ?_, ?_⟩
  · intro h
    unfold statusLine
    rw [splitChar_not_mem ':' line h]
  · intro h hk1 hk2 hk3
    obtain ⟨ts, hts⟩ := splitChar_mem ':' line h
    unfold statusLine
    rw [hts]
    simp only [beforeFirstColon, ne_eq, decide_not] at hk1 hk2 hk3
    simp [hk1, hk2, hk3]
  · intro h hk
    obtain ⟨ts, hts⟩ := splitChar_mem ':' line h
    unfold statusLine
    rw [hts]
    simp only [beforeFirstColon, ne_eq, decide_not] at hk
    simp [hk, betweenFirstColons]
  · intro h hk
    obtain ⟨ts, hts⟩ := splitChar_mem ':' line h
    unfold statusLine
    rw [hts]
    simp only [beforeFirstColon, ne_eq, decide_not] at hk
    have hne : trimSpace (List.takeWhile (fun x => !decide (x = ':')) line) ≠
        ("Logged in as").data := by
      rw [hk]; decide
    simp [hk, hne, betweenFirstColons]
  · intro h hk
    obtain ⟨ts, hts⟩ := splitChar_mem ':' line h
    unfold statusLine
    rw [hts]
    simp only [beforeFirstColon, ne_eq, decide_not] at hk
    have hne1 : trimSpace (List.takeWhile (fun x => !decide (x = ':')) line) ≠
        ("Logged in as").data := by
      rw [hk]; decide
    have hne2 : trimSpace (List.takeWhile (fun x => !decide (x = ':')) line) ≠
        ("Roles").data := by
      rw [hk]; decide
    simp [hk, hne1, hne2, betweenFirstColons]

/-- The example line of the C10 witness. -/
def c10Line : GoStr := ("Logged in as: alice:ignored").data

/-- Witness for C10: on a line whose value contains a colon, the stored
identity is truncated at that colon. -/
theorem c10_statusLine_truncation_witness :
    statusLine emptyProxyStatus c10Line =
      { emptyProxyStatus with loginAs := trimSpace (betweenFirstColons c10Line) } :=
  (c10_statusLine_truncation emptyProxyStatus c10Line).2.2.1 (by decide) (by decide)

/-- A current time in October 2025, strictly before year 2099. -/
def nowOct2025 : Int := civilInstant 2025 10 11 0 0 0

/-- C1 (counterexample): with the specification's status text and the
target proxy address `https://proxy.example.com/webapi`, `isLogin` returns
false even at a time strictly before year 2099, because the profile map
key is the exact text `https://proxy.example.com` of the status line and
not the configured address. -/
theorem c1_webapi_address_mismatch :
    isLogin (("https://proxy.example.com/webapi").data) nowOct2025 false
      c1StatusText [] = some false ∧
    nowOct2025 < instant2099 := by
  constructor
  · decide
  · decide

/-- C1 (amended): with the target address `https://proxy.example.com/webapi`
the example's `isLogin` is false at every current time; with the target
address exactly equal to the profile line's URL it is true exactly when
the current time is strictly before 2099-01-01 00:00:00 UTC. -/
theorem c1_amended_isLogin_example : ∀ now : Int,
    isLogin (("https://proxy.example.com/webapi").data) now false
      c1StatusText [] = some false ∧
    isLogin (("https://proxy.example.com").data) now false
      c1StatusText [] = some (goTimeBefore now instant2099) := by
  intro now
  exact ⟨rfl, rfl⟩

/-- C2 (code bug): a status text whose `Valid until:` line precedes any
`Profile URL:` line makes the scan dereference the nil `currentProfile`
(the embedded scan returns `none`, the Go code panics), so the scan does
not in fact complete for every status text; the claim's parse-failure
half does hold — on a text whose timestamp does not parse, the committed
profile keeps the zero-value expiry. -/
theorem c2_nil_profile_crash :
    parseProfileMap (("Valid until: x").data) = none ∧
    parseProfileMap (("Profile URL: u\nValid until: garbage").data) =
      some [(("u").data, { url := ("u").data, validUntil := 0 })] := by
  constructor
  · decide
  · decide

/-- C3 (counterexample): on a status text whose `Valid until:` line
precedes any `Profile URL:` line (with the executor succeeding and the
error stream empty), `isLogin` neither returns true nor returns false —
the Go code panics — refuting the claim that it returns false in every
case where the logged-in conditions fail. -/
theorem c3_isLogin_not_total :
    isLogin (("u").data) 0 false (("Valid until: x").data) [] ≠ some false ∧
    isLogin (("u").data) 0 false (("Valid until: x").data) [] ≠ some true := by
  constructor
  · decide
  · decide

/-- C3 (amended): `isLogin` returns true exactly when the executor ran
without error, the error stream is empty, the profile scan completes, the
parsed map has an entry keyed by the exact target address and that entry's
expiry is strictly after now; and it returns false in every other case in
which the scan does not panic (executor error, non-empty error stream,
missing profile, or expiry at/before now). -/
theorem c3_amended_isLogin_iff :
    ∀ (address : GoStr) (now : Int) (runErr : Bool) (stdOut stdErr : GoStr),
    (isLogin address now runErr stdOut stdErr = some true ↔
      (runErr = false ∧ stdErr = [] ∧
        ∃ pm p, parseProfileMap stdOut = some pm ∧ mapLookup address pm = some p ∧
          goTimeBefore now p.validUntil = true)) ∧
    (runErr = true → isLogin address now runErr stdOut stdErr = some false) ∧
    (runErr = false → stdErr ≠ [] →
      isLogin address now runErr stdOut stdErr = some false) ∧
    (∀ pm, runErr = false → stdErr = [] → parseProfileMap stdOut = some pm →
      mapLookup address pm = none →
      isLogin address now runErr stdOut stdErr = some false) ∧
    (∀ pm p, runErr = false → stdErr = [] → parseProfileMap stdOut = some pm →
      mapLookup address pm = some p → goTimeBefore now p.validUntil = false →
      isLogin address now runErr stdOut stdErr = some false) := by
  intro address now runErr stdOut stdErr
  refine ⟨?_, ?_, ?_, ?_, ?_⟩
  · constructor
    · intro h
      cases runErr with
      | true => simp [isLogin] at h
      | false =>
        by_cases hs : stdErr = []
        · cases hpm : parseProfileMap stdOut with
          | none => simp [isLogin, hs, hpm] at h
          | some pm =>
            cases hlk : mapLookup address pm with
            | none => simp [isLogin, hs, hpm, hlk] at h
            | some p =>
              refine ⟨rfl, hs, pm, p, rfl, hlk, ?_⟩
              simpa [isLogin, hs, hpm, hlk] using h
        · simp [isLogin, hs] at h
    · rintro ⟨hr, hs, pm, p, hpm, hlk, hb⟩
      subst hr
      simp [isLogin, hs, hpm, hlk, hb]
  · intro hr
    subst hr
    simp [isLogin]
  · intro hr hs
    subst hr
    simp [isLogin, hs]
  · intro pm hr hs hpm hlk
    subst hr
    simp [isLogin, hs, hpm, hlk]
  · intro pm p hr hs hpm hlk hb
    subst hr
    simp [isLogin, hs, hpm, hlk, hb]

/-- Witness for C3 (amended): an executor error yields false. -/
theorem c3_amended_isLogin_iff_witness :
    isLogin (("u").data) 0 true (("x").data) [] = some false :=
  (c3_amended_isLogin_iff (("u").data) 0 true (("x").data) []).2.1 rfl

end Tpot
